import Mathlib

/-! microestc/mysql: the stash test helpers and the generated Elasticsearch informer.

Three parts.

* `Stash`: `test/e2e/framework/stash.go`, the builders of the stash objects
  (backup configuration, repository, restore session) and the calls that
  create, pause and delete them.
* `Informers`: the generated `elasticsearch.go`, the constructors of the shared
  informer and the `Informer()` / `Lister()` accessors.
* `Core`: the change queue, reflector and processor that the informer drives,
  which live outside the sources and are written down from the specification.
-/

set_option autoImplicit false

namespace Stash

/-! ## Data model of `stash.go` -/

/-- metav1.ObjectMeta: the fields that the helpers read or write. -/
structure ObjectMeta where
  Name : String
  Namespace : String
  Labels : List (String × String)
deriving DecidableEq, Repr

/-- core.LocalObjectReference. -/
structure LocalObjectReference where
  Name : String
deriving DecidableEq, Repr

/-- stashV1alpha1.RetentionPolicy: the fields that the helpers set. -/
structure RetentionPolicy where
  Name : String
  KeepLast : Int
  Prune : Bool
deriving DecidableEq, Repr

/-- stashv1beta1.TaskRef. -/
structure TaskRef where
  Name : String
deriving DecidableEq, Repr

/-- stashv1beta1.TargetRef. -/
structure TargetRef where
  APIVersion : String
  Kind : String
  Name : String
deriving DecidableEq, Repr

/-- stashv1beta1.BackupTarget. -/
structure BackupTarget where
  Ref : TargetRef
deriving DecidableEq, Repr

/-- stashv1beta1.RestoreTarget. -/
structure RestoreTarget where
  Ref : TargetRef
deriving DecidableEq, Repr

/-- stashv1beta1.BackupConfigurationTemplateSpec: task and target (a pointer). -/
structure BackupConfigurationTemplateSpec where
  Task : TaskRef
  Target : Option BackupTarget
deriving DecidableEq, Repr

/-- stashv1beta1.BackupConfigurationSpec; the template spec is embedded. -/
structure BackupConfigurationSpec where
  BackupConfigurationTemplateSpec : BackupConfigurationTemplateSpec
  Schedule : String
  Repository : LocalObjectReference
  RetentionPolicy : RetentionPolicy
  Paused : Bool
deriving DecidableEq, Repr

/-- stashv1beta1.BackupConfigurationStatus. -/
structure BackupConfigurationStatus where
  ObservedGeneration : Int
  Conditions : List String
deriving DecidableEq, Repr

/-- stashv1beta1.BackupConfiguration. -/
structure BackupConfiguration where
  ObjectMeta : ObjectMeta
  Spec : BackupConfigurationSpec
  Status : BackupConfigurationStatus
deriving DecidableEq, Repr

/-- stashV1alpha1.RepositorySpec. -/
structure RepositorySpec where
  WipeOut : Bool
deriving DecidableEq, Repr

/-- stashV1alpha1.RepositoryStatus. -/
structure RepositoryStatus where
  SnapshotCount : Int
deriving DecidableEq, Repr

/-- stashV1alpha1.Repository. -/
structure Repository where
  ObjectMeta : ObjectMeta
  Spec : RepositorySpec
  Status : RepositoryStatus
deriving DecidableEq, Repr

/-- stashv1beta1.Rule. -/
structure Rule where
  Snapshots : List String
deriving DecidableEq, Repr

/-- stashv1beta1.RestoreSessionSpec. -/
structure RestoreSessionSpec where
  Task : TaskRef
  Repository : LocalObjectReference
  Rules : List Rule
  Target : Option RestoreTarget
deriving DecidableEq, Repr

/-- stashv1beta1.RestoreSession. -/
structure RestoreSession where
  ObjectMeta : ObjectMeta
  Spec : RestoreSessionSpec
deriving DecidableEq, Repr

/-- Constants that `stash.go` imports from other packages; their values are
declared outside the sources, so they are parameters here. -/
structure Constants where
  /-- Value of `appcat.SchemeGroupVersion.String()`. -/
  SchemeGroupVersion : String
  /-- Value of `appcat.ResourceKindApp`. -/
  ResourceKindApp : String
  /-- Value of `api.LabelDatabaseKind`. -/
  LabelDatabaseKind : String
  /-- Value of `api.ResourceKindMySQL`. -/
  ResourceKindMySQL : String
  /-- Value of the package variable `DBCatalogName`. -/
  DBCatalogName : String

/-- A call that the helpers send to the stash API: the resource collection is
chosen by the namespace given to `Repositories(..)` / `BackupConfigurations(..)`
/ `RestoreSessions(..)`, the object by its name. -/
inductive Call where
  | createBackupConfiguration (ns : String) (obj : BackupConfiguration)
  | deleteBackupConfiguration (ns : String) (name : String)
  | createRepository (ns : String) (obj : Repository)
  | deleteRepository (ns : String) (name : String)
  | createRestoreSession (ns : String) (obj : RestoreSession)
  | deleteRestoreSession (ns : String) (name : String)
deriving DecidableEq, Repr

/-- The (namespace, name) key that a call addresses: the namespace of the
collection and the name of the object created or deleted there. -/
def Call.key : Call → String × String
  | .createBackupConfiguration ns obj => (ns, obj.ObjectMeta.Name)
  | .deleteBackupConfiguration ns name => (ns, name)
  | .createRepository ns obj => (ns, obj.ObjectMeta.Name)
  | .deleteRepository ns name => (ns, name)
  | .createRestoreSession ns obj => (ns, obj.ObjectMeta.Name)
  | .deleteRestoreSession ns name => (ns, name)

/-- The Framework struct: its namespace and the two clients the helpers use.
`mysqlVersionGet` is `dbClient.CatalogV1alpha1().MySQLVersions().Get`, giving
`Spec.Version` or an error; `stashDo` is the stash client, giving the error of a
call if there is one; `tryUpdateBackupConfiguration` is
`v1beta1_util.TryUpdateBackupConfiguration` on that client. -/
structure Framework where
  namespace_ : String
  mysqlVersionGet : String → Except String String
  stashDo : Call → Option String
  tryUpdateBackupConfiguration :
    ObjectMeta → (BackupConfiguration → BackupConfiguration) → Except String BackupConfiguration

/-- The Invocation struct: an embedded Framework and the app label. -/
structure Invocation where
  toFramework : Framework
  app : String

/-- Field `f.namespace` of an invocation, promoted from the embedded Framework. -/
def Invocation.namespace_ (f : Invocation) : String := f.toFramework.namespace_

/-! ## Functions of `stash.go` -/

/-- Framework.getStashPGBackupTaskName: a failed `Get` fails the `Expect`. -/
def Framework.getStashPGBackupTaskName (c : Constants) (f : Framework) : Except String String :=
  match f.mysqlVersionGet c.DBCatalogName with
  | .error e => .error e
  | .ok version => .ok ("mysql-backup-" ++ version)

/-- Framework.getStashPGRestoreTaskName: a failed `Get` fails the `Expect`. -/
def Framework.getStashPGRestoreTaskName (c : Constants) (f : Framework) : Except String String :=
  match f.mysqlVersionGet c.DBCatalogName with
  | .error e => .error e
  | .ok version => .ok ("mysql-restore-" ++ version)

/-- Invocation.BackupConfiguration; `repo` is a pointer, nil is `none`. The call
of getStashPGBackupTaskName runs before `repo.Name` is read, so a failed lookup
is what fails first. -/
def Invocation.BackupConfiguration (c : Constants) (f : Invocation) (meta : ObjectMeta)
    (repo : Option Stash.Repository) : Except String Stash.BackupConfiguration :=
  match f.toFramework.getStashPGBackupTaskName c with
  | .error e => .error e
  | .ok task =>
    match repo with
    | none => .error "nil pointer dereference"
    | some repo =>
      .ok
        { ObjectMeta := { Name := meta.Name ++ "-stash", Namespace := f.namespace_, Labels := [] }
          Spec :=
            { Repository := { Name := repo.ObjectMeta.Name }
              Schedule := "*/2 * * * *"
              RetentionPolicy := { KeepLast := 5, Name := "keep-last-5", Prune := true }
              BackupConfigurationTemplateSpec :=
                { Task := { Name := task }
                  Target := some
                    { Ref :=
                        { APIVersion := c.SchemeGroupVersion
                          Kind := c.ResourceKindApp
                          Name := meta.Name } } }
              Paused := false }
          Status := { ObservedGeneration := 0, Conditions := [] } }

/-- Framework.CreateBackupConfiguration, for a pointer that is not nil. -/
def Framework.CreateBackupConfiguration (f : Framework) (backupCfg : BackupConfiguration) :
    Option String :=
  f.stashDo (.createBackupConfiguration backupCfg.ObjectMeta.Namespace backupCfg)

/-- Framework.DeleteBackupConfiguration. -/
def Framework.DeleteBackupConfiguration (f : Framework) (meta : ObjectMeta) : Option String :=
  f.stashDo (.deleteBackupConfiguration meta.Namespace meta.Name)

/-- The function literal inside PauseBackupConfiguration: sets `in.Spec.Paused`
and returns `in`. -/
def pauseTransform (c : BackupConfiguration) : BackupConfiguration :=
  { c with Spec := { c.Spec with Paused := true } }

/-- Framework.PauseBackupConfiguration: the error of the update, if any. -/
def Framework.PauseBackupConfiguration (f : Framework) (meta : ObjectMeta) : Option String :=
  match f.tryUpdateBackupConfiguration meta pauseTransform with
  | .error e => some e
  | .ok _ => none

/-- Invocation.Repository. -/
def Invocation.Repository (f : Invocation) (meta : ObjectMeta) : Stash.Repository :=
  { ObjectMeta := { Name := meta.Name, Namespace := f.namespace_, Labels := [] }
    Spec := { WipeOut := true }
    Status := { SnapshotCount := 0 } }

/-- Framework.CreateRepository, for a repository pointer that is not nil. -/
def Framework.CreateRepository (f : Framework) (repo : Repository) : Option String :=
  f.stashDo (.createRepository repo.ObjectMeta.Namespace repo)

/-- Framework.DeleteRepository. -/
def Framework.DeleteRepository (f : Framework) (meta : ObjectMeta) : Option String :=
  f.stashDo (.deleteRepository meta.Namespace meta.Name)

/-- Invocation.RestoreSession; `repo` is a pointer, nil is `none`. The task name
is computed before `repo.Name` is read. -/
def Invocation.RestoreSession (c : Constants) (f : Invocation) (meta : ObjectMeta)
    (repo : Option Stash.Repository) : Except String Stash.RestoreSession :=
  match f.toFramework.getStashPGRestoreTaskName c with
  | .error e => .error e
  | .ok task =>
    match repo with
    | none => .error "nil pointer dereference"
    | some repo =>
      .ok
        { ObjectMeta :=
            { Name := meta.Name ++ "-stash"
              Namespace := f.namespace_
              Labels := [("app", f.app), (c.LabelDatabaseKind, c.ResourceKindMySQL)] }
          Spec :=
            { Task := { Name := task }
              Repository := { Name := repo.ObjectMeta.Name }
              Rules := [{ Snapshots := ["latest"] }]
              Target := some
                { Ref :=
                    { APIVersion := c.SchemeGroupVersion
                      Kind := c.ResourceKindApp
                      Name := meta.Name } } } }

/-- Framework.CreateRestoreSession, for a pointer that is not nil. -/
def Framework.CreateRestoreSession (f : Framework) (restoreSession : RestoreSession) :
    Option String :=
  f.stashDo (.createRestoreSession restoreSession.ObjectMeta.Namespace restoreSession)

/-- Framework.DeleteRestoreSession. -/
def Framework.DeleteRestoreSession (f : Framework) (meta : ObjectMeta) : Option String :=
  f.stashDo (.deleteRestoreSession meta.Namespace meta.Name)

end Stash

namespace Informers

/-! ## Data model of `elasticsearch.go` -/

/-- v1.ListOptions of the Kubernetes API: the selectors and paging fields. -/
structure ListOptions where
  LabelSelector : String
  FieldSelector : String
  Watch : Bool
  ResourceVersion : String
  TimeoutSeconds : Option Int
  Limit : Int
  Continue : String
deriving DecidableEq, Repr

/-- internalinterfaces.TweakListOptionsFunc, `func(*v1.ListOptions)`: the
function rewrites the options it is pointed at, so it is the map from the options
before the call to the options after it. -/
abbrev TweakListOptionsFunc := ListOptions → ListOptions

/-- Typed client of one namespace, `client.KubedbV1alpha1().Elasticsearches(ns)`:
`L` is what a list returns (a list of objects or an error), `W` what a watch
returns (a watch stream or an error). -/
structure ElasticsearchInterface (L W : Type) where
  List : ListOptions → L
  Watch : ListOptions → W

/-- versioned.Interface, as far as the informer uses it. -/
structure Interface (L W : Type) where
  Elasticsearches : String → ElasticsearchInterface L W

/-- cache.ListWatch. -/
structure ListWatch (L W : Type) where
  ListFunc : ListOptions → L
  WatchFunc : ListOptions → W

/-- The object type that an informer is created for and a factory is keyed by
(in Go, the reflected type of the `runtime.Object` passed as example). -/
inductive ObjectType where
  | Elasticsearch
  | other (name : String)
deriving DecidableEq, Repr

/-- kubedbv1alpha1.Elasticsearch, for the index functions: its namespace and name. -/
structure Elasticsearch where
  Namespace : String
  Name : String
deriving DecidableEq, Repr

/-- cache.IndexFunc: the index values of an object, or an error. -/
abbrev IndexFunc := Elasticsearch → Except String (List String)

/-- cache.Indexers, `map[string]IndexFunc`, as the list of its entries. -/
abbrev Indexers := List (String × IndexFunc)

/-- Modelled from the spec: cache.NamespaceIndex is a constant of client-go, not
in the sources; the store has "named secondary indexes", this is the name of the
one by namespace. -/
def NamespaceIndex : String := "namespace"

/-- Modelled from the spec: cache.MetaNamespaceIndexFunc is a function of
client-go, not in the sources; it is the "secondary computed index function" for
the namespace, whose only index value is the namespace of the object. -/
def MetaNamespaceIndexFunc : IndexFunc := fun obj => .ok [obj.Namespace]

/-- time.Duration, in nanoseconds. -/
abbrev Duration := Int

/-- Address of an indexer (the thread-safe store of an informer). -/
abbrev IndexerRef := Nat

/-- The store behind an indexer: its index functions and its objects. -/
structure Store where
  indexers : Indexers
  items : List Elasticsearch

/-- A shared index informer as NewSharedIndexInformer builds it: `id` tells
instances apart (the pointer in Go), the other fields are the configuration it
was given and the address of its own indexer. -/
structure SharedIndexInformer (L W : Type) where
  id : Nat
  listerWatcher : ListWatch L W
  objectType : ObjectType
  resyncPeriod : Duration
  indexer : IndexerRef

/-- Modelled from the spec: GetIndexer is a method of client-go, not in the
sources; it gives the "Indexer facade" of the informer, the address of the store
that the informer writes. -/
def SharedIndexInformer.GetIndexer {L W : Type} (i : SharedIndexInformer L W) : IndexerRef :=
  i.indexer

/-- Everything the constructors allocate: `constructed` counts the informers
built so far (and is the id of the next one), `stores` holds the indexers. -/
structure World where
  constructed : Nat
  stores : List Store

/-- Modelled from the spec: cache.NewSharedIndexInformer belongs to client-go and
is not in the sources. The informer "mirrors the state of a remote collection
... into an in-process indexed store": the constructor keeps the list+watch
transport, the object type and the resync period, and allocates a fresh, empty
store that carries the given secondary index functions. -/
def NewSharedIndexInformer {L W : Type} (lw : ListWatch L W) (objType : ObjectType)
    (defaultEventHandlerResyncPeriod : Duration) (indexers : Indexers) (w : World) :
    SharedIndexInformer L W × World :=
  ({ id := w.constructed
     listerWatcher := lw
     objectType := objType
     resyncPeriod := defaultEventHandlerResyncPeriod
     indexer := w.stores.length },
   { constructed := w.constructed + 1
     stores := w.stores ++ [{ indexers := indexers, items := [] }] })

/-- internalinterfaces.NewInformerFunc. -/
abbrev NewInformerFunc (L W : Type) :=
  Interface L W → Duration → World → SharedIndexInformer L W × World

/-- internalinterfaces.SharedInformerFactory, as far as the informer uses it:
`InformerFor(obj, newFunc)`. A factory has a state of its own, of type `σ`. -/
structure SharedInformerFactory (σ L W : Type) where
  InformerFor :
    ObjectType → NewInformerFunc L W → σ → World → SharedIndexInformer L W × σ × World

/-- The elasticsearchInformer struct. A nil `tweakListOptions` is `none`. -/
structure elasticsearchInformer (σ L W : Type) where
  factory : SharedInformerFactory σ L W
  tweakListOptions : Option TweakListOptionsFunc
  namespace_ : String

/-- Modelled from the spec: the generated lister is not in the sources; a lister
is a "read-only query interface over VersionedStore", so it is the indexer that
it reads. -/
structure ElasticsearchLister where
  indexer : IndexerRef
deriving DecidableEq, Repr

/-- Modelled from the spec: v1alpha1.NewElasticsearchLister is not in the
sources; the lister it builds reads the indexer it is given. -/
def NewElasticsearchLister (indexer : IndexerRef) : ElasticsearchLister :=
  { indexer := indexer }

/-! ## Functions of `elasticsearch.go` -/

/-- NewFilteredElasticsearchInformer. `options` is passed by value, so the
tweak changes the copy that the closure then sends. -/
def NewFilteredElasticsearchInformer {L W : Type} (client : Interface L W) (ns : String)
    (resyncPeriod : Duration) (indexers : Indexers)
    (tweakListOptions : Option TweakListOptionsFunc) (w : World) :
    SharedIndexInformer L W × World :=
  NewSharedIndexInformer
    { ListFunc := fun options =>
        let options :=
          match tweakListOptions with
          | some tweak => tweak options
          | none => options
        (client.Elasticsearches ns).List options
      WatchFunc := fun options =>
        let options :=
          match tweakListOptions with
          | some tweak => tweak options
          | none => options
        (client.Elasticsearches ns).Watch options }
    ObjectType.Elasticsearch
    resyncPeriod
    indexers
    w

/-- NewElasticsearchInformer. -/
def NewElasticsearchInformer {L W : Type} (client : Interface L W) (ns : String)
    (resyncPeriod : Duration) (indexers : Indexers) (w : World) :
    SharedIndexInformer L W × World :=
  NewFilteredElasticsearchInformer client ns resyncPeriod indexers none w

/-- Method elasticsearchInformer.defaultInformer. -/
def elasticsearchInformer.defaultInformer {σ L W : Type} (f : elasticsearchInformer σ L W) :
    NewInformerFunc L W :=
  fun client resyncPeriod w =>
    NewFilteredElasticsearchInformer client f.namespace_ resyncPeriod
      [(NamespaceIndex, MetaNamespaceIndexFunc)] f.tweakListOptions w

/-- Method elasticsearchInformer.Informer. -/
def elasticsearchInformer.Informer {σ L W : Type} (f : elasticsearchInformer σ L W)
    (s : σ) (w : World) : SharedIndexInformer L W × σ × World :=
  f.factory.InformerFor ObjectType.Elasticsearch f.defaultInformer s w

/-- Method elasticsearchInformer.Lister. -/
def elasticsearchInformer.Lister {σ L W : Type} (f : elasticsearchInformer σ L W)
    (s : σ) (w : World) : ElasticsearchLister × σ × World :=
  let r := f.Informer s w
  (NewElasticsearchLister r.1.GetIndexer, r.2)

/-! ## Factories and clients to run the informer with -/

/-- A factory memoises per type when it answers a type it already holds an
informer for with that informer, touching nothing, and answers any other type by
calling `newFunc` once, with its own client and the resync period of the type,
and holding on to the result. `cached` reads the informer held for a type. -/
structure MemoisesPerType {σ L W : Type} (fac : SharedInformerFactory σ L W)
    (cached : σ → ObjectType → Option (SharedIndexInformer L W))
    (client : σ → Interface L W) (resync : σ → ObjectType → Duration) : Prop where
  hit : ∀ t newFunc s w i, cached s t = some i → fac.InformerFor t newFunc s w = (i, s, w)
  miss : ∀ t newFunc s w, cached s t = none →
    ∃ s2, fac.InformerFor t newFunc s w =
        ((newFunc (client s) (resync s t) w).1, s2, (newFunc (client s) (resync s t) w).2)
      ∧ cached s2 t = some (newFunc (client s) (resync s t) w).1

/-- State of the generated sharedInformerFactory: client, resync periods and
the informers built so far, by type. -/
structure FactoryState (L W : Type) where
  client : Interface L W
  defaultResync : Duration
  customResync : List (ObjectType × Duration)
  informers : List (ObjectType × SharedIndexInformer L W)

/-- Lookup in a map kept as a list of entries. -/
def lookup {α : Type} (t : ObjectType) : List (ObjectType × α) → Option α
  | [] => none
  | (k, v) :: rest => if k = t then some v else lookup t rest

/-- Resync period that the generated factory uses for a type: the custom one if
there is one, else the default. -/
def FactoryState.resyncFor {L W : Type} (s : FactoryState L W) (t : ObjectType) : Duration :=
  match lookup t s.customResync with
  | some d => d
  | none => s.defaultResync

/-- Modelled from the spec: the generated factory.go is not in the sources. The
factory is the "shared-factory singleton (one informer instance reused across
callers, keyed by type)": an informer already built for the type is returned,
otherwise one is built with `newFunc`, with the client of the factory and the resync
period of the type, and remembered. -/
def sharedInformerFactory (L W : Type) : SharedInformerFactory (FactoryState L W) L W where
  InformerFor := fun t newFunc s w =>
    match lookup t s.informers with
    | some informer => (informer, s, w)
    | none =>
      let resyncPeriod := s.resyncFor t
      let r := newFunc s.client resyncPeriod w
      (r.1, { s with informers := (t, r.1) :: s.informers }, r.2)

/-- A request as a client sees it: the verb, the namespace of the collection and
the options sent. -/
structure Request where
  verb : String
  ns : String
  options : ListOptions
deriving DecidableEq, Repr

/-- A client that answers every call with the request it received. -/
def tracingClient : Interface Request Request where
  Elasticsearches := fun ns =>
    { List := fun options => { verb := "list", ns := ns, options := options }
      Watch := fun options => { verb := "watch", ns := ns, options := options } }

/-- Consumers calling `Informer()` one after the other on the same factory state:
the informers they get, and the state and world after the last call. -/
def callInformers {σ L W : Type} :
    List (elasticsearchInformer σ L W) → σ → World → List (SharedIndexInformer L W) × σ × World
  | [], s, w => ([], s, w)
  | f :: rest, s, w =>
    let r := f.Informer s w
    let rs := callInformers rest r.2.1 r.2.2
    (r.1 :: rs.1, rs.2)

end Informers

namespace Core

/-! ## The synchronisation core, from the specification

The queue, reflector, processor and store are code of client-go that the
informer constructors hand their list+watch functions to; none of it is in the
sources, so each definition below follows the words of the specification. -/

/-- Primary key of an object ("namespace+name or name"). -/
abbrev Key := String

/-- Modelled from the spec: an Object is "an opaque resource record with a unique
key, a resource version token and arbitrary payload"; the record type itself is
not in the sources. -/
structure Object where
  key : Key
  resourceVersion : Nat
  payload : String
deriving DecidableEq, Repr

/-- Modelled from the spec: the kinds of a ChangeRecord, "kind ∈ (Added, Updated,
Deleted, Sync)". -/
inductive ChangeKind where
  | Added
  | Updated
  | Deleted
  | Sync
deriving DecidableEq, Repr

/-- Modelled from the spec: a ChangeRecord is "key, kind, object snapshot (nil for
Deleted), enqueue sequence number". -/
structure ChangeRecord where
  key : Key
  kind : ChangeKind
  object : Option Object
  seq : Nat
deriving DecidableEq, Repr

/-- A mapping from keys with one entry set (or, with `none`, removed). -/
def setEntry {α : Type} (m : Key → Option α) (k : Key) (v : Option α) : Key → Option α :=
  fun k2 => if k2 = k then v else m k2

/-- Modelled from the spec: the ChangeQueue "maintains an ordered list of pending
keys plus a mapping key → latest ChangeRecord"; it is Open or Closed, and stamps
records with an enqueue sequence number. The queue of client-go is not in the
sources. -/
structure ChangeQueue where
  order : List Key
  records : Key → Option ChangeRecord
  nextSeq : Nat
  closed : Bool

/-- The empty, open queue. -/
def ChangeQueue.empty : ChangeQueue :=
  { order := [], records := fun _ => none, nextSeq := 0, closed := false }

/-- Modelled from the spec: "Add appends the key to the order list only if the
key has no pending record; it then overwrites (or merges, for
Deleted-after-Added = drop) the record for that key", and "Added followed by
Deleted before the Added was popped collapses to no record". The order list is
the list of pending keys, so the key of a dropped record leaves it. -/
def ChangeQueue.Add (q : ChangeQueue) (r : ChangeRecord) : ChangeQueue :=
  let stamped : ChangeRecord := { r with seq := q.nextSeq }
  match q.records r.key with
  | none =>
    { order := q.order ++ [r.key]
      records := setEntry q.records r.key (some stamped)
      nextSeq := q.nextSeq + 1
      closed := q.closed }
  | some pending =>
    if pending.kind = ChangeKind.Added ∧ r.kind = ChangeKind.Deleted then
      { order := q.order.erase r.key
        records := setEntry q.records r.key none
        nextSeq := q.nextSeq + 1
        closed := q.closed }
    else
      { order := q.order
        records := setEntry q.records r.key (some stamped)
        nextSeq := q.nextSeq + 1
        closed := q.closed }

/-- Outcome of a Pop: a record and the queue without it, or the call would block
(open and empty), or the closed-signal (closed and empty). -/
inductive PopResult where
  | record (r : ChangeRecord) (q : ChangeQueue)
  | blocked
  | closedSignal

/-- Modelled from the spec: "Pop() → record (blocks if empty)", "Pop on a closed,
empty queue returns a closed-signal", and "keys are delivered in first-seen
order": the record of the first key of the order list is taken out. A first key
without a record does not occur in a queue built by Add and Pop; Pop then has
nothing to hand out. -/
def ChangeQueue.Pop (q : ChangeQueue) : PopResult :=
  match q.order with
  | [] => if q.closed then PopResult.closedSignal else PopResult.blocked
  | k :: rest =>
    match q.records k with
    | some r =>
      PopResult.record r
        { order := rest
          records := setEntry q.records k none
          nextSeq := q.nextSeq
          closed := q.closed }
    | none => PopResult.blocked

/-- Modelled from the spec: "Close()", with "Open → Closed (terminal)". -/
def ChangeQueue.Close (q : ChangeQueue) : ChangeQueue :=
  { q with closed := true }

/-- The records that are pending, in the order in which Pop will hand them out. -/
def ChangeQueue.pendingRecords (q : ChangeQueue) : List ChangeRecord :=
  q.order.filterMap q.records

/-- An operation on the queue: an Add of a record, or a Pop. -/
inductive QueueOp where
  | add (r : ChangeRecord)
  | pop

/-- The queue after one operation; a Pop that blocks leaves the queue as it is. -/
def ChangeQueue.apply (q : ChangeQueue) : QueueOp → ChangeQueue
  | QueueOp.add r => q.Add r
  | QueueOp.pop =>
    match q.Pop with
    | PopResult.record _ q2 => q2
    | PopResult.blocked => q
    | PopResult.closedSignal => q

/-- The queue after a sequence of operations. -/
def ChangeQueue.run (q : ChangeQueue) (ops : List QueueOp) : ChangeQueue :=
  ops.foldl ChangeQueue.apply q

/-- Modelled from the spec: the VersionedStore is a "mapping key → Object (current
authoritative local view)"; its secondary indexes are "recomputed atomically with
the primary mapping on every mutation", so the contents are the primary mapping.
The store of client-go is not in the sources. -/
structure VersionedStore where
  objects : Key → Option Object

/-- The empty store. -/
def VersionedStore.empty : VersionedStore := { objects := fun _ => none }

/-- Modelled from the spec: "Put(key, object)". -/
def VersionedStore.Put (s : VersionedStore) (k : Key) (o : Object) : VersionedStore :=
  { objects := setEntry s.objects k (some o) }

/-- Modelled from the spec: "Delete(key)". -/
def VersionedStore.Delete (s : VersionedStore) (k : Key) : VersionedStore :=
  { objects := setEntry s.objects k none }

/-- Modelled from the spec: "Get(key) → (object, found)"; a missing key is a
normal not-found result. -/
def VersionedStore.Get (s : VersionedStore) (k : Key) : Option Object :=
  s.objects k

/-- Kind of a remote event of the watch stream, as far as it changes objects. -/
inductive EventKind where
  | Added
  | Updated
  | Deleted
deriving DecidableEq, Repr

/-- Modelled from the spec: an event of the watch stream, "kind, object,
resourceVersion"; the version token is the one of the object. -/
structure Event where
  kind : EventKind
  object : Object
deriving DecidableEq, Repr

/-- Key of the object of an event. -/
def Event.key (e : Event) : Key := e.object.key

/-- Modelled from the spec: the Reflector "translates" each received event "to a
ChangeRecord"; the snapshot is "nil for Deleted". -/
def Reflector.translate (e : Event) : ChangeRecord :=
  match e.kind with
  | EventKind.Added =>
    { key := e.key, kind := ChangeKind.Added, object := some e.object, seq := 0 }
  | EventKind.Updated =>
    { key := e.key, kind := ChangeKind.Updated, object := some e.object, seq := 0 }
  | EventKind.Deleted =>
    { key := e.key, kind := ChangeKind.Deleted, object := none, seq := 0 }

/-- The pipeline: the watch cursor of the Reflector, the queue between Reflector
and SharedProcessor, and the store that the SharedProcessor writes. -/
structure Pipeline where
  cursor : Option Nat
  queue : ChangeQueue
  store : VersionedStore

/-- The pipeline before any event: no cursor, empty queue, empty store. -/
def Pipeline.init : Pipeline :=
  { cursor := none, queue := ChangeQueue.empty, store := VersionedStore.empty }

/-- Modelled from the spec: "For each received event, translate to a ChangeRecord
and feed the ChangeQueue", advancing the cursor with the resource-version token
of the event. -/
def Reflector.receive (p : Pipeline) (e : Event) : Pipeline :=
  { cursor := some e.object.resourceVersion
    queue := p.queue.Add (Reflector.translate e)
    store := p.store }

/-- The store after a popped record: a Deleted removes the key, any other kind
puts the snapshot. -/
def SharedProcessor.update (s : VersionedStore) (r : ChangeRecord) : VersionedStore :=
  match r.kind with
  | ChangeKind.Deleted => s.Delete r.key
  | _ =>
    match r.object with
    | some o => s.Put r.key o
    | none => s

/-- Modelled from the spec: the SharedProcessor is the "single-consumer drain of
the ChangeQueue; for each popped record, update VersionedStore and deliver to
listeners". One step pops one record; when Pop would block nothing changes.
Deliveries do not touch the store and are left out. -/
def SharedProcessor.step (p : Pipeline) : Pipeline :=
  match p.queue.Pop with
  | PopResult.record r q => { cursor := p.cursor, queue := q, store := SharedProcessor.update p.store r }
  | PopResult.blocked => p
  | PopResult.closedSignal => p

/-- One action of a run: the Reflector receives an event, or the SharedProcessor
takes a step. -/
inductive Action where
  | receive (e : Event)
  | process
deriving DecidableEq, Repr

/-- The pipeline after one action. -/
def Pipeline.act (p : Pipeline) : Action → Pipeline
  | Action.receive e => Reflector.receive p e
  | Action.process => SharedProcessor.step p

/-- The pipeline after a schedule of actions. -/
def Pipeline.run (p : Pipeline) (acts : List Action) : Pipeline :=
  acts.foldl Pipeline.act p

/-- The remote events of a schedule, in the order in which they are received. -/
def eventsOf : List Action → List Event
  | [] => []
  | Action.receive e :: rest => e :: eventsOf rest
  | Action.process :: rest => eventsOf rest

/-- Both components have drained fully: no record is pending in the queue. -/
def Pipeline.drained (p : Pipeline) : Prop := p.queue.order = []

instance (p : Pipeline) : Decidable p.drained := by
  unfold Pipeline.drained; infer_instance

/-- One event replayed onto a map: "Added=insert, Updated=overwrite,
Deleted=remove". -/
def replayStep (m : Key → Option Object) (e : Event) : Key → Option Object :=
  match e.kind with
  | EventKind.Added => setEntry m e.key (some e.object)
  | EventKind.Updated => setEntry m e.key (some e.object)
  | EventKind.Deleted => setEntry m e.key none

/-- The map obtained by "replaying every event in order onto an empty map". -/
def replay (events : List Event) : Key → Option Object :=
  events.foldl replayStep (fun _ => none)

/-- In a sequence of events, an Added event for the key is never preceded by an
event for the same key. -/
def addedOnlyFirst (k : Key) : List Event → Bool
  | [] => true
  | e :: rest =>
    if e.key = k then rest.all (fun e2 => !(e2.key = k && e2.kind = EventKind.Added))
    else addedOnlyFirst k rest

/-- Well-formed queue: no key twice in the order list, the order list holds
exactly the keys with a pending record, and a record is filed under its key. -/
def ChangeQueue.WF (q : ChangeQueue) : Prop :=
  q.order.Nodup ∧ (∀ k, k ∈ q.order ↔ q.records k ≠ none) ∧
    (∀ k r, q.records k = some r → r.key = k)

/-- What relates, for one key, the pipeline to the events received so far: a key
without events is nowhere; a pending record, once processed, brings the store to
the replayed value; without pending record the store holds the replayed object,
and is equal to the replay if the key was not Added again after its first event. -/
def KeyInv (p : Pipeline) (evs : List Event) (k : Key) : Prop :=
  ((∀ e ∈ evs, e.key ≠ k) → p.store.objects k = none ∧ p.queue.records k = none) ∧
  (∀ r, p.queue.records k = some r →
    (SharedProcessor.update p.store r).objects k = replay evs k ∧
    (r.kind = ChangeKind.Added → addedOnlyFirst k evs = true → p.store.objects k = none)) ∧
  (p.queue.records k = none →
    (∀ o, replay evs k = some o → p.store.objects k = some o) ∧
    (addedOnlyFirst k evs = true → p.store.objects k = replay evs k))

/-- Invariant of the pipeline after receiving the events `evs`. -/
def PipelineInv (p : Pipeline) (evs : List Event) : Prop :=
  p.queue.WF ∧ ∀ k, KeyInv p evs k

end Core

/-! ## Concrete inputs -/

namespace Stash

/-- Constants as the imported packages declare them. -/
def exampleConstants : Constants :=
  { SchemeGroupVersion := "appcatalog.appscode.com/v1alpha1"
    ResourceKindApp := "AppBinding"
    LabelDatabaseKind := "kubedb.com/kind"
    ResourceKindMySQL := "MySQL"
    DBCatalogName := "8.0-v2" }

/-- An invocation in namespace "test-ns" whose catalog knows one MySQL version
and whose stash client accepts every call. -/
def exampleInvocation : Invocation :=
  { toFramework :=
      { namespace_ := "test-ns"
        mysqlVersionGet := fun name =>
          if name = "8.0-v2" then Except.ok "8.0.14" else Except.error "not found"
        stashDo := fun _ => none
        tryUpdateBackupConfiguration := fun _ _ => Except.error "not found" }
    app := "mysql-app" }

/-- A framework whose stash client answers every call with the key the call
addresses, written namespace/name. -/
def keyReportingFramework : Framework :=
  { namespace_ := "test-ns"
    mysqlVersionGet := fun _ => Except.error "not found"
    stashDo := fun call => some (call.key.1 ++ "/" ++ call.key.2)
    tryUpdateBackupConfiguration := fun _ _ => Except.error "not found" }

/-- Object meta of a database in another namespace than the invocation. -/
def exampleMeta : ObjectMeta := { Name := "db", Namespace := "other-ns", Labels := [] }

/-- A backup configuration that is not paused. -/
def exampleBackupConfiguration : BackupConfiguration :=
  { ObjectMeta := { Name := "db-stash", Namespace := "test-ns", Labels := [] }
    Spec :=
      { BackupConfigurationTemplateSpec := { Task := { Name := "mysql-backup-8.0.14" }, Target := none }
        Schedule := "*/2 * * * *"
        Repository := { Name := "db" }
        RetentionPolicy := { Name := "keep-last-5", KeepLast := 5, Prune := true }
        Paused := false }
    Status := { ObservedGeneration := 1, Conditions := [] } }

end Stash

namespace Informers

/-- A factory state with the tracing client, a default resync period and no
informer built yet. -/
def exampleFactoryState : FactoryState Request Request :=
  { client := tracingClient, defaultResync := 600, customResync := [], informers := [] }

/-- A consumer of the generated factory, for all namespaces, without tweak. -/
def exampleInformer : elasticsearchInformer (FactoryState Request Request) Request Request :=
  { factory := sharedInformerFactory Request Request, tweakListOptions := none, namespace_ := "" }

/-- The world before anything is constructed. -/
def emptyWorld : World := { constructed := 0, stores := [] }

end Informers

namespace Core

/-- A flood of Added records for "hot", one record for "cold" in between. -/
def floodOps : List QueueOp :=
  [ QueueOp.add { key := "hot", kind := ChangeKind.Added,
                  object := some { key := "hot", resourceVersion := 1, payload := "h1" }, seq := 0 },
    QueueOp.add { key := "cold", kind := ChangeKind.Added,
                  object := some { key := "cold", resourceVersion := 1, payload := "c1" }, seq := 0 },
    QueueOp.add { key := "hot", kind := ChangeKind.Added,
                  object := some { key := "hot", resourceVersion := 2, payload := "h2" }, seq := 0 },
    QueueOp.add { key := "hot", kind := ChangeKind.Added,
                  object := some { key := "hot", resourceVersion := 3, payload := "h3" }, seq := 0 } ]

/-- A schedule in which a key is deleted and added again while the processor is
behind: "k" is added and processed, then deleted, added again and deleted again
before the processor takes another step. -/
def readdedSchedule : List Action :=
  [ Action.receive { kind := EventKind.Added, object := { key := "k", resourceVersion := 1, payload := "v1" } },
    Action.process,
    Action.receive { kind := EventKind.Deleted, object := { key := "k", resourceVersion := 2, payload := "v1" } },
    Action.receive { kind := EventKind.Added, object := { key := "k", resourceVersion := 3, payload := "v2" } },
    Action.receive { kind := EventKind.Deleted, object := { key := "k", resourceVersion := 4, payload := "v2" } } ]

/-- The same four events as in `readdedSchedule`, each processed before the next
one is received. -/
def promptSchedule : List Action :=
  [ Action.receive { kind := EventKind.Added, object := { key := "k", resourceVersion := 1, payload := "v1" } },
    Action.process,
    Action.receive { kind := EventKind.Deleted, object := { key := "k", resourceVersion := 2, payload := "v1" } },
    Action.process,
    Action.receive { kind := EventKind.Added, object := { key := "k", resourceVersion := 3, payload := "v2" } },
    Action.process,
    Action.receive { kind := EventKind.Deleted, object := { key := "k", resourceVersion := 4, payload := "v2" } },
    Action.process ]

end Core

/-! ## Theorems about `stash.go` -/

namespace Stash

/-- Two strings that are equal after the same string is appended are equal. -/
theorem string_append_cancel (a b c : String) (h : a ++ c = b ++ c) : a = b := by
  have hd := congrArg String.data h
  rw [String.data_append, String.data_append] at hd
  exact String.ext (List.append_cancel_right hd)

/-- C8: for every invocation, object meta and repository, when the catalog lookup
fails the backup configuration and the restore session both fail with its error,
and when it succeeds both are built and agree: name is the meta name followed by
"-stash", namespace is the namespace of the invocation, repository name is the
name of the repository, and the target is the AppBinding API version and kind
with the meta name. -/
theorem backup_and_restore_agree (c : Constants) (f : Invocation) (m : ObjectMeta)
    (r : Stash.Repository) :
    (∀ e, f.toFramework.mysqlVersionGet c.DBCatalogName = Except.error e →
      f.BackupConfiguration c m (some r) = Except.error e ∧
      f.RestoreSession c m (some r) = Except.error e) ∧
    (∀ v, f.toFramework.mysqlVersionGet c.DBCatalogName = Except.ok v →
      ∃ b s, f.BackupConfiguration c m (some r) = Except.ok b ∧
        f.RestoreSession c m (some r) = Except.ok s ∧
        b.ObjectMeta.Name = m.Name ++ "-stash" ∧ s.ObjectMeta.Name = m.Name ++ "-stash" ∧
        b.ObjectMeta.Namespace = f.namespace_ ∧ s.ObjectMeta.Namespace = f.namespace_ ∧
        b.Spec.Repository.Name = r.ObjectMeta.Name ∧
        s.Spec.Repository.Name = r.ObjectMeta.Name ∧
        b.Spec.BackupConfigurationTemplateSpec.Target =
          some { Ref := { APIVersion := c.SchemeGroupVersion, Kind := c.ResourceKindApp, Name := m.Name } } ∧
        s.Spec.Target =
          some { Ref := { APIVersion := c.SchemeGroupVersion, Kind := c.ResourceKindApp, Name := m.Name } }) := by
  constructor
  · intro e he
    simp [Invocation.BackupConfiguration, Invocation.RestoreSession,
      Framework.getStashPGBackupTaskName, Framework.getStashPGRestoreTaskName, he]
  · intro v hv
    simp [Invocation.BackupConfiguration, Invocation.RestoreSession,
      Framework.getStashPGBackupTaskName, Framework.getStashPGRestoreTaskName, hv]

/-- Witness of C8: in the example invocation both objects are built for a meta of
another namespace, and they agree. -/
theorem backup_and_restore_agree_witness :
    ∃ b s, exampleInvocation.BackupConfiguration exampleConstants exampleMeta
        (some (exampleInvocation.Repository exampleMeta)) = Except.ok b ∧
      exampleInvocation.RestoreSession exampleConstants exampleMeta
        (some (exampleInvocation.Repository exampleMeta)) = Except.ok s ∧
      b.ObjectMeta.Name = "db" ++ "-stash" ∧ s.ObjectMeta.Name = "db" ++ "-stash" ∧
      b.ObjectMeta.Namespace = "test-ns" ∧ s.ObjectMeta.Namespace = "test-ns" ∧
      b.Spec.Repository.Name = "db" ∧ s.Spec.Repository.Name = "db" ∧
      b.Spec.BackupConfigurationTemplateSpec.Target =
        some { Ref := { APIVersion := "appcatalog.appscode.com/v1alpha1", Kind := "AppBinding", Name := "db" } } ∧
      s.Spec.Target =
        some { Ref := { APIVersion := "appcatalog.appscode.com/v1alpha1", Kind := "AppBinding", Name := "db" } } :=
  (backup_and_restore_agree exampleConstants exampleInvocation exampleMeta
    (exampleInvocation.Repository exampleMeta)).2 "8.0.14" rfl

/-- C9: the repository built for a meta has the name of the meta and the
namespace of the invocation; on every framework CreateRepository of the built
repository sends the create call of that repository to the collection of the
namespace of the invocation, and DeleteRepository of the meta sends the delete
call for the name of the meta to the collection of the namespace of the meta; the
two calls address the same (namespace, name) key exactly when the namespace of
the meta is the namespace of the invocation. -/
theorem repository_create_delete_key (f : Invocation) (m : ObjectMeta) :
    (f.Repository m).ObjectMeta.Name = m.Name ∧
    (f.Repository m).ObjectMeta.Namespace = f.namespace_ ∧
    (∀ fw : Framework, fw.CreateRepository (f.Repository m) =
      fw.stashDo (Call.createRepository f.namespace_ (f.Repository m))) ∧
    (∀ fw : Framework, fw.DeleteRepository m =
      fw.stashDo (Call.deleteRepository m.Namespace m.Name)) ∧
    (Call.createRepository f.namespace_ (f.Repository m)).key = (f.namespace_, m.Name) ∧
    (Call.deleteRepository m.Namespace m.Name).key = (m.Namespace, m.Name) ∧
    ((Call.createRepository f.namespace_ (f.Repository m)).key =
        (Call.deleteRepository m.Namespace m.Name).key ↔ m.Namespace = f.namespace_) ∧
    (keyReportingFramework.CreateRepository (f.Repository m) =
        keyReportingFramework.DeleteRepository m ↔ m.Namespace = f.namespace_) := by
  refine ⟨rfl, rfl, fun _ => rfl, fun _ => rfl, rfl, rfl, ?_, ?_⟩
  · simp only [Call.key, Invocation.Repository, Prod.mk.injEq, and_true]
    exact eq_comm
  · simp only [Framework.CreateRepository, Framework.DeleteRepository, keyReportingFramework,
      Call.key, Invocation.Repository, Option.some.injEq]
    constructor
    · intro h
      exact (string_append_cancel _ _ _ (string_append_cancel _ _ _ h)).symm
    · intro h
      rw [h]

/-- C10: the transform of PauseBackupConfiguration gives a configuration that is
paused and has the metadata, template spec (task and target), schedule,
repository, retention policy and status of its argument; applying it twice is
applying it once; and PauseBackupConfiguration hands exactly this transform to
the update. -/
theorem pauseTransform_frame (c : BackupConfiguration) :
    (pauseTransform c).Spec.Paused = true ∧
    (pauseTransform c).ObjectMeta = c.ObjectMeta ∧
    (pauseTransform c).Spec.Schedule = c.Spec.Schedule ∧
    (pauseTransform c).Spec.Repository = c.Spec.Repository ∧
    (pauseTransform c).Spec.RetentionPolicy = c.Spec.RetentionPolicy ∧
    (pauseTransform c).Spec.BackupConfigurationTemplateSpec.Task =
      c.Spec.BackupConfigurationTemplateSpec.Task ∧
    (pauseTransform c).Spec.BackupConfigurationTemplateSpec.Target =
      c.Spec.BackupConfigurationTemplateSpec.Target ∧
    (pauseTransform c).Status = c.Status ∧
    pauseTransform c =
      { ObjectMeta := c.ObjectMeta
        Spec :=
          { BackupConfigurationTemplateSpec := c.Spec.BackupConfigurationTemplateSpec
            Schedule := c.Spec.Schedule
            Repository := c.Spec.Repository
            RetentionPolicy := c.Spec.RetentionPolicy
            Paused := true }
        Status := c.Status } ∧
    pauseTransform (pauseTransform c) = pauseTransform c ∧
    (∀ (f : Framework) (meta : ObjectMeta),
      f.PauseBackupConfiguration meta =
        match f.tryUpdateBackupConfiguration meta pauseTransform with
        | Except.error e => some e
        | Except.ok _ => none) :=
  ⟨rfl, rfl, rfl, rfl, rfl, rfl, rfl, rfl, rfl, rfl, fun _ _ => rfl⟩

end Stash

/-! ## Theorems about `elasticsearch.go` -/

namespace Informers

/-- The generated factory memoises per type. -/
theorem sharedInformerFactory_memoises (L W : Type) :
    MemoisesPerType (sharedInformerFactory L W) (fun s t => lookup t s.informers)
      (fun s => s.client) FactoryState.resyncFor := by
  constructor
  · intro t newFunc s w i hi
    simp only [sharedInformerFactory, hi]
  · intro t newFunc s w hnone
    refine ⟨{ s with informers :=
      (t, (newFunc s.client (s.resyncFor t) w).1) :: s.informers }, ?_, ?_⟩
    · simp only [sharedInformerFactory, hnone, FactoryState.resyncFor]
    · simp [lookup]

/-- Each call of defaultInformer constructs exactly one informer. -/
theorem defaultInformer_constructed {σ L W : Type} (f : elasticsearchInformer σ L W)
    (client : Interface L W) (r : Duration) (w : World) :
    (f.defaultInformer client r w).2.constructed = w.constructed + 1 := rfl

/-- Once a memoising factory holds an Elasticsearch informer, every further call
of Informer() returns it and changes neither the factory nor the world. -/
theorem callInformers_cached {σ L W : Type} (fac : SharedInformerFactory σ L W)
    (cached : σ → ObjectType → Option (SharedIndexInformer L W))
    (client : σ → Interface L W) (resync : σ → ObjectType → Duration)
    (h : MemoisesPerType fac cached client resync)
    (fs : List (elasticsearchInformer σ L W)) (hfs : ∀ f ∈ fs, f.factory = fac)
    (s : σ) (w : World) (i : SharedIndexInformer L W)
    (hi : cached s ObjectType.Elasticsearch = some i) :
    callInformers fs s w = (List.replicate fs.length i, s, w) := by
  induction fs with
  | nil => rfl
  | cons f rest ih =>
    have hf : f.factory = fac := hfs f (List.mem_cons_self _ _)
    have hcall : f.Informer s w = (i, s, w) := by
      unfold elasticsearchInformer.Informer
      rw [hf]
      exact h.hit _ _ s w i hi
    have hrest := ih (fun g hg => hfs g (List.mem_cons_of_mem _ hg))
    simp only [callInformers, hcall, hrest, List.length_cons, List.replicate_succ]

/-- C1: Informer() is InformerFor of the factory applied to the Elasticsearch type
and defaultInformer, result, factory state and world included; so with a factory
that memoises per type, any number of consumers of that factory calling
Informer() one after the other all get the same informer, and at most one
informer is constructed (defaultInformer runs at most once). -/
theorem Informer_shared_per_type {σ L W : Type} (fac : SharedInformerFactory σ L W)
    (cached : σ → ObjectType → Option (SharedIndexInformer L W))
    (client : σ → Interface L W) (resync : σ → ObjectType → Duration)
    (h : MemoisesPerType fac cached client resync)
    (fs : List (elasticsearchInformer σ L W)) (hfs : ∀ f ∈ fs, f.factory = fac)
    (s : σ) (w : World) :
    (∀ (f : elasticsearchInformer σ L W) (s2 : σ) (w2 : World), f.Informer s2 w2 =
      f.factory.InformerFor ObjectType.Elasticsearch f.defaultInformer s2 w2) ∧
    (∀ i ∈ (callInformers fs s w).1, ∀ j ∈ (callInformers fs s w).1, i = j) ∧
    (callInformers fs s w).2.2.constructed ≤ w.constructed + 1 := by
  refine ⟨fun _ _ _ => rfl, ?_⟩
  · cases hc : cached s ObjectType.Elasticsearch with
    | some i =>
      rw [callInformers_cached fac cached client resync h fs hfs s w i hc]
      refine ⟨?_, Nat.le_succ _⟩
      intro a ha b hb
      rw [List.eq_of_mem_replicate ha, List.eq_of_mem_replicate hb]
    | none =>
      cases fs with
      | nil =>
        refine ⟨?_, Nat.le_succ _⟩
        intro a ha
        cases ha
      | cons f rest =>
        have hf : f.factory = fac := hfs f (List.mem_cons_self _ _)
        obtain ⟨s2, hcall, hs2⟩ := h.miss ObjectType.Elasticsearch f.defaultInformer s w hc
        have hInf : f.Informer s w =
            ((f.defaultInformer (client s) (resync s ObjectType.Elasticsearch) w).1, s2,
              (f.defaultInformer (client s) (resync s ObjectType.Elasticsearch) w).2) := by
          unfold elasticsearchInformer.Informer
          rw [hf]
          exact hcall
        have hrest := callInformers_cached fac cached client resync h rest
          (fun g hg => hfs g (List.mem_cons_of_mem _ hg)) s2
          (f.defaultInformer (client s) (resync s ObjectType.Elasticsearch) w).2 _ hs2
        simp only [callInformers, hInf, hrest]
        refine ⟨?_, ?_⟩
        · intro a ha b hb
          have key : ∀ x, x ∈ (f.defaultInformer (client s)
              (resync s ObjectType.Elasticsearch) w).1 :: List.replicate rest.length
                (f.defaultInformer (client s) (resync s ObjectType.Elasticsearch) w).1 →
              x = (f.defaultInformer (client s) (resync s ObjectType.Elasticsearch) w).1 := by
            intro x hx
            rcases List.mem_cons.mp hx with hx | hx
            · exact hx
            · exact List.eq_of_mem_replicate hx
          rw [key a ha, key b hb]
        · rw [defaultInformer_constructed]

/-- Witness of C1: three consumers of the generated factory, starting with no
informer built, get one informer and one construction. -/
theorem Informer_shared_per_type_witness :
    (∀ (f : elasticsearchInformer (FactoryState Request Request) Request Request)
        (s2 : FactoryState Request Request) (w2 : World), f.Informer s2 w2 =
      f.factory.InformerFor ObjectType.Elasticsearch f.defaultInformer s2 w2) ∧
    (∀ i ∈ (callInformers [exampleInformer, exampleInformer, exampleInformer]
        exampleFactoryState emptyWorld).1,
      ∀ j ∈ (callInformers [exampleInformer, exampleInformer, exampleInformer]
        exampleFactoryState emptyWorld).1, i = j) ∧
    (callInformers [exampleInformer, exampleInformer, exampleInformer]
      exampleFactoryState emptyWorld).2.2.constructed ≤ emptyWorld.constructed + 1 :=
  Informer_shared_per_type (sharedInformerFactory Request Request)
    (fun s t => lookup t s.informers) (fun s => s.client) FactoryState.resyncFor
    (sharedInformerFactory_memoises Request Request)
    [exampleInformer, exampleInformer, exampleInformer]
    (by intro f hf; simp at hf; rw [hf]; rfl)
    exampleFactoryState emptyWorld

/-- C2: for every client, namespace, tweak and options, the ListFunc and the
WatchFunc of the informer built by NewFilteredElasticsearchInformer call the
client of that namespace with the tweaked options when there is a tweak and with
the options unchanged when there is none; seen from a client that records its
requests, both requests carry the same namespace and the same options. -/
theorem ListFunc_WatchFunc_same_request {L W : Type} (client : Interface L W) (ns : String)
    (resyncPeriod : Duration) (indexers : Indexers) (w : World) (o : ListOptions) :
    (∀ tweak : TweakListOptionsFunc,
      (NewFilteredElasticsearchInformer client ns resyncPeriod indexers (some tweak) w).1.listerWatcher.ListFunc o
        = (client.Elasticsearches ns).List (tweak o) ∧
      (NewFilteredElasticsearchInformer client ns resyncPeriod indexers (some tweak) w).1.listerWatcher.WatchFunc o
        = (client.Elasticsearches ns).Watch (tweak o)) ∧
    ((NewFilteredElasticsearchInformer client ns resyncPeriod indexers none w).1.listerWatcher.ListFunc o
        = (client.Elasticsearches ns).List o ∧
      (NewFilteredElasticsearchInformer client ns resyncPeriod indexers none w).1.listerWatcher.WatchFunc o
        = (client.Elasticsearches ns).Watch o) ∧
    (∀ tweak : Option TweakListOptionsFunc,
      ((NewFilteredElasticsearchInformer tracingClient ns resyncPeriod indexers tweak w).1.listerWatcher.ListFunc o).ns = ns ∧
      ((NewFilteredElasticsearchInformer tracingClient ns resyncPeriod indexers tweak w).1.listerWatcher.WatchFunc o).ns = ns ∧
      ((NewFilteredElasticsearchInformer tracingClient ns resyncPeriod indexers tweak w).1.listerWatcher.ListFunc o).options =
        ((NewFilteredElasticsearchInformer tracingClient ns resyncPeriod indexers tweak w).1.listerWatcher.WatchFunc o).options) :=
  ⟨fun _ => ⟨rfl, rfl⟩, ⟨rfl, rfl⟩, fun _ => ⟨rfl, rfl, rfl⟩⟩

/-- C5: defaultInformer is NewFilteredElasticsearchInformer with the namespace and
tweak of the receiver, the given resync period and the single index entry
(NamespaceIndex, MetaNamespaceIndexFunc); the informer it builds has that resync
period and a store whose secondary indexes are exactly that one entry. -/
theorem defaultInformer_configuration {σ L W : Type} (f : elasticsearchInformer σ L W)
    (client : Interface L W) (resyncPeriod : Duration) (w : World) :
    f.defaultInformer client resyncPeriod w =
      NewFilteredElasticsearchInformer client f.namespace_ resyncPeriod
        [(NamespaceIndex, MetaNamespaceIndexFunc)] f.tweakListOptions w ∧
    (f.defaultInformer client resyncPeriod w).1.resyncPeriod = resyncPeriod ∧
    (f.defaultInformer client resyncPeriod w).1.objectType = ObjectType.Elasticsearch ∧
    ((f.defaultInformer client resyncPeriod w).2.stores[
        (f.defaultInformer client resyncPeriod w).1.GetIndexer]?).map Store.indexers =
      some [(NamespaceIndex, MetaNamespaceIndexFunc)] ∧
    [(NamespaceIndex, MetaNamespaceIndexFunc)].length = 1 ∧
    (∀ o, (f.defaultInformer client resyncPeriod w).1.listerWatcher.ListFunc o =
      (NewFilteredElasticsearchInformer client f.namespace_ resyncPeriod
        [(NamespaceIndex, MetaNamespaceIndexFunc)] f.tweakListOptions w).1.listerWatcher.ListFunc o) := by
  refine ⟨rfl, rfl, rfl, ?_, rfl, fun _ => rfl⟩
  simp [elasticsearchInformer.defaultInformer, NewFilteredElasticsearchInformer,
    NewSharedIndexInformer, SharedIndexInformer.GetIndexer]

/-- C6: Lister() is the lister over the indexer of the informer that Informer()
returns, and leaves factory and world as Informer() leaves them; with a factory
that memoises per type, a Lister() call after the shared informer exists reads
the indexer of that informer and changes nothing, the stores included. -/
theorem Lister_reads_shared_indexer {σ L W : Type} (fac : SharedInformerFactory σ L W)
    (cached : σ → ObjectType → Option (SharedIndexInformer L W))
    (client : σ → Interface L W) (resync : σ → ObjectType → Duration)
    (h : MemoisesPerType fac cached client resync)
    (f : elasticsearchInformer σ L W) (hf : f.factory = fac) (s : σ) (w : World) :
    f.Lister s w = (NewElasticsearchLister (f.Informer s w).1.GetIndexer, (f.Informer s w).2) ∧
    (f.Lister s w).2.2.stores = (f.Informer s w).2.2.stores ∧
    (∀ i, cached s ObjectType.Elasticsearch = some i →
      f.Lister s w = (NewElasticsearchLister i.GetIndexer, s, w)) ∧
    (f.Lister (f.Informer s w).2.1 (f.Informer s w).2.2 =
      (NewElasticsearchLister (f.Informer s w).1.GetIndexer, (f.Informer s w).2)) := by
  have hit : ∀ s2 w2 i, cached s2 ObjectType.Elasticsearch = some i →
      f.Informer s2 w2 = (i, s2, w2) := by
    intro s2 w2 i hi
    unfold elasticsearchInformer.Informer
    rw [hf]
    exact h.hit _ _ s2 w2 i hi
  refine ⟨rfl, rfl, ?_, ?_⟩
  · intro i hi
    simp only [elasticsearchInformer.Lister, hit s w i hi]
  · cases hc : cached s ObjectType.Elasticsearch with
    | some i =>
      simp only [elasticsearchInformer.Lister, hit s w i hc]
    | none =>
      obtain ⟨s2, hcall, hs2⟩ := h.miss ObjectType.Elasticsearch f.defaultInformer s w hc
      have hInf : f.Informer s w =
          ((f.defaultInformer (client s) (resync s ObjectType.Elasticsearch) w).1, s2,
            (f.defaultInformer (client s) (resync s ObjectType.Elasticsearch) w).2) := by
        unfold elasticsearchInformer.Informer
        rw [hf]
        exact hcall
      simp only [elasticsearchInformer.Lister, hInf, hit s2 _ _ hs2]

/-- Witness of C6: with the generated factory and nothing built yet, Lister()
reads the indexer of the informer that Informer() makes the factory build. -/
theorem Lister_reads_shared_indexer_witness :
    exampleInformer.Lister exampleFactoryState emptyWorld =
      (NewElasticsearchLister (exampleInformer.Informer exampleFactoryState emptyWorld).1.GetIndexer,
        (exampleInformer.Informer exampleFactoryState emptyWorld).2) ∧
    (exampleInformer.Lister exampleFactoryState emptyWorld).2.2.stores =
      (exampleInformer.Informer exampleFactoryState emptyWorld).2.2.stores ∧
    (∀ i, lookup ObjectType.Elasticsearch exampleFactoryState.informers = some i →
      exampleInformer.Lister exampleFactoryState emptyWorld =
        (NewElasticsearchLister i.GetIndexer, exampleFactoryState, emptyWorld)) ∧
    (exampleInformer.Lister (exampleInformer.Informer exampleFactoryState emptyWorld).2.1
        (exampleInformer.Informer exampleFactoryState emptyWorld).2.2 =
      (NewElasticsearchLister (exampleInformer.Informer exampleFactoryState emptyWorld).1.GetIndexer,
        (exampleInformer.Informer exampleFactoryState emptyWorld).2)) :=
  Lister_reads_shared_indexer (sharedInformerFactory Request Request)
    (fun s t => lookup t s.informers) (fun s => s.client) FactoryState.resyncFor
    (sharedInformerFactory_memoises Request Request) exampleInformer rfl
    exampleFactoryState emptyWorld

/-- C7: NewElasticsearchInformer is NewFilteredElasticsearchInformer with a nil
tweak, and the list and watch functions of the informer it builds send the
options of the caller unmodified to the client of the namespace. -/
theorem NewElasticsearchInformer_unfiltered {L W : Type} (client : Interface L W) (ns : String)
    (resyncPeriod : Duration) (indexers : Indexers) (w : World) :
    NewElasticsearchInformer client ns resyncPeriod indexers w =
      NewFilteredElasticsearchInformer client ns resyncPeriod indexers none w ∧
    (∀ o, (NewElasticsearchInformer client ns resyncPeriod indexers w).1.listerWatcher.ListFunc o =
      (client.Elasticsearches ns).List o) ∧
    (∀ o, (NewElasticsearchInformer client ns resyncPeriod indexers w).1.listerWatcher.WatchFunc o =
      (client.Elasticsearches ns).Watch o) :=
  ⟨rfl, fun _ => rfl, fun _ => rfl⟩

end Informers

/-! ## Theorems about the synchronisation core -/

namespace Core

theorem setEntry_same {α : Type} (m : Key → Option α) (k : Key) (v : Option α) :
    setEntry m k v k = v := by
  simp [setEntry]

theorem setEntry_other {α : Type} (m : Key → Option α) (k k2 : Key) (v : Option α)
    (h : k2 ≠ k) : setEntry m k v k2 = m k2 := by
  simp [setEntry, h]

/-- The records of a queue after an Add, key by key. -/
theorem Add_records (q : ChangeQueue) (r : ChangeRecord) (k : Key) :
    (q.Add r).records k =
      if k = r.key then
        match q.records r.key with
        | none => some { r with seq := q.nextSeq }
        | some pending =>
          if pending.kind = ChangeKind.Added ∧ r.kind = ChangeKind.Deleted then none
          else some { r with seq := q.nextSeq }
      else q.records k := by
  unfold ChangeQueue.Add
  cases hrec : q.records r.key with
  | none => simp only [setEntry]
  | some pending =>
    by_cases hdrop : pending.kind = ChangeKind.Added ∧ r.kind = ChangeKind.Deleted
    · simp only [hdrop, and_self, if_true, setEntry]
    · simp only [hdrop, if_false, setEntry]

theorem WF_empty : ChangeQueue.empty.WF := by
  refine ⟨List.nodup_nil, ?_, ?_⟩
  · intro k
    simp [ChangeQueue.empty]
  · intro k r h
    simp [ChangeQueue.empty] at h

/-- Add keeps a queue well formed. -/
theorem WF_Add (q : ChangeQueue) (r : ChangeRecord) (h : q.WF) : (q.Add r).WF := by
  obtain ⟨hnd, hmem, hkey⟩ := h
  have hrecs := Add_records q r
  refine ⟨?_, ?_, ?_⟩
  · unfold ChangeQueue.Add
    cases hrec : q.records r.key with
    | none =>
      have hnot : r.key ∉ q.order := fun hin => (hmem r.key).mp hin hrec
      simp only
      exact List.Nodup.append hnd (List.nodup_singleton _) (by simpa using hnot)
    | some pending =>
      by_cases hdrop : pending.kind = ChangeKind.Added ∧ r.kind = ChangeKind.Deleted
      · simp only [hdrop, and_self, if_true]
        exact hnd.erase _
      · simp only [hdrop, if_false]
        exact hnd
  · intro k
    rw [hrecs k]
    unfold ChangeQueue.Add
    cases hrec : q.records r.key with
    | none =>
      by_cases hk : k = r.key
      · simp [hk]
      · simp [hk, hmem k]
    | some pending =>
      have hin : r.key ∈ q.order := (hmem r.key).mpr (by simp [hrec])
      by_cases hdrop : pending.kind = ChangeKind.Added ∧ r.kind = ChangeKind.Deleted
      · by_cases hk : k = r.key
        · simp [hdrop, hk, hnd.mem_erase_iff]
        · simp [hdrop, hk, hnd.mem_erase_iff, hmem k]
      · by_cases hk : k = r.key
        · simp [hdrop, hk, hin]
        · simp [hdrop, hk, hmem k]
  · intro k r2 hr2
    rw [hrecs k] at hr2
    by_cases hk : k = r.key
    · simp only [hk, if_true] at hr2
      cases hrec : q.records r.key with
      | none =>
        simp only [hrec, Option.some.injEq] at hr2
        rw [← hr2, hk]
      | some pending =>
        by_cases hdrop : pending.kind = ChangeKind.Added ∧ r.kind = ChangeKind.Deleted
        · simp [hrec, hdrop] at hr2
        · simp only [hrec, hdrop, if_false, Option.some.injEq] at hr2
          rw [← hr2, hk]
    · simp only [hk, if_false] at hr2
      exact hkey k r2 hr2

/-- What a successful Pop of a well-formed queue hands out and leaves. -/
theorem Pop_record (q q2 : ChangeQueue) (r : ChangeRecord) (h : q.WF)
    (hpop : q.Pop = PopResult.record r q2) :
    q.order = r.key :: q2.order ∧ q.records r.key = some r ∧
      q2.records = setEntry q.records r.key none ∧ q2.WF := by
  obtain ⟨hnd, hmem, hkey⟩ := h
  unfold ChangeQueue.Pop at hpop
  cases hord : q.order with
  | nil =>
    simp only [hord] at hpop
    by_cases hc : q.closed = true
    · simp [hc] at hpop
    · simp [hc] at hpop
  | cons k rest =>
    simp only [hord] at hpop
    cases hrec : q.records k with
    | none => simp [hrec] at hpop
    | some r0 =>
      simp only [hrec, PopResult.record.injEq] at hpop
      obtain ⟨hr, hq2⟩ := hpop
      subst hr
      have hk : r0.key = k := hkey k r0 hrec
      subst hq2
      rw [hord] at hnd
      have hnotin : k ∉ rest := (List.nodup_cons.mp hnd).1
      refine ⟨by simp [hk], by rw [hk]; exact hrec, by simp [hk], ?_, ?_, ?_⟩
      · exact (List.nodup_cons.mp hnd).2
      · intro k2
        by_cases hk2 : k2 = k
        · subst hk2
          simp [setEntry, hnotin]
        · have := hmem k2
          rw [hord] at this
          simp [setEntry, hk2] at this ⊢
          exact this
      · intro k2 r2 hr2
        by_cases hk2 : k2 = k
        · simp [setEntry, hk2] at hr2
        · simp only [setEntry, hk2, if_false] at hr2
          exact hkey k2 r2 hr2

/-- Every operation keeps a queue well formed. -/
theorem WF_apply (q : ChangeQueue) (op : QueueOp) (h : q.WF) : (q.apply op).WF := by
  cases op with
  | add r => exact WF_Add q r h
  | pop =>
    unfold ChangeQueue.apply
    cases hpop : q.Pop with
    | record r q2 => exact (Pop_record q q2 r h hpop).2.2.2
    | blocked => exact h
    | closedSignal => exact h

/-- Every queue reached by Add and Pop from a well-formed queue is well formed. -/
theorem WF_run (ops : List QueueOp) (q : ChangeQueue) (h : q.WF) : (q.run ops).WF := by
  induction ops generalizing q with
  | nil => exact h
  | cons op rest ih => exact ih (q.apply op) (WF_apply q op h)

/-- In a queue whose records are filed under their keys, the pending records of
a key are at most as many as the occurrences of the key in the order list. -/
theorem countP_pending_le (records : Key → Option ChangeRecord)
    (hkey : ∀ k r, records k = some r → r.key = k) (k : Key) (l : List Key) :
    (l.filterMap records).countP (fun r => r.key = k) ≤ l.count k := by
  induction l with
  | nil => simp
  | cons a rest ih =>
    cases hrec : records a with
    | none =>
      rw [List.filterMap_cons_none hrec]
      exact Nat.le_trans ih (List.count_le_count_cons _ _ _)
    | some r =>
      rw [List.filterMap_cons_some hrec, List.countP_cons, List.count_cons]
      have hra : r.key = a := hkey a r hrec
      by_cases hak : a = k
      · simp [hra, hak]
        exact ih
      · have : ¬ r.key = k := by rw [hra]; exact hak
        simp [this, hak]
        exact ih

/-- C4: in every queue reached from the empty queue by any sequence of Add and
Pop, every key has at most one pending record and occurs at most once in the
order list; whenever the pending record of a key is an Added, adding a Deleted
for the key leaves no pending record for it and takes the key out of the order
list; and so does adding an Added and then a Deleted for the same key. -/
theorem queue_one_pending_record_per_key (ops : List QueueOp) :
    (∀ k, ((ChangeQueue.empty.run ops).pendingRecords.countP (fun r => r.key = k)) ≤ 1) ∧
    (∀ k, (ChangeQueue.empty.run ops).order.count k ≤ 1) ∧
    (∀ (k : Key) (pending : ChangeRecord) (o : Option Object) (n : Nat),
      (ChangeQueue.empty.run ops).records k = some pending →
      pending.kind = ChangeKind.Added →
      ((ChangeQueue.empty.run ops).Add
          { key := k, kind := ChangeKind.Deleted, object := o, seq := n }).records k = none ∧
      k ∉ ((ChangeQueue.empty.run ops).Add
          { key := k, kind := ChangeKind.Deleted, object := o, seq := n }).order) ∧
    (∀ (k : Key) (o1 o2 : Option Object) (n1 n2 : Nat),
      ((((ChangeQueue.empty.run ops).Add
          { key := k, kind := ChangeKind.Added, object := o1, seq := n1 }).Add
          { key := k, kind := ChangeKind.Deleted, object := o2, seq := n2 }).records k = none) ∧
      k ∉ (((ChangeQueue.empty.run ops).Add
          { key := k, kind := ChangeKind.Added, object := o1, seq := n1 }).Add
          { key := k, kind := ChangeKind.Deleted, object := o2, seq := n2 }).order ∧
      ((((ChangeQueue.empty.run ops).Add
          { key := k, kind := ChangeKind.Added, object := o1, seq := n1 }).Add
          { key := k, kind := ChangeKind.Deleted, object := o2, seq := n2 }).pendingRecords.countP
            (fun r => r.key = k)) = 0) := by
  have hwf := WF_run ops ChangeQueue.empty WF_empty
  have hcount : ∀ k, (ChangeQueue.empty.run ops).order.count k ≤ 1 := fun k =>
    List.nodup_iff_count_le_one.mp hwf.1 k
  have hdrop : ∀ (q : ChangeQueue) (k : Key) (pending : ChangeRecord) (o : Option Object)
      (n : Nat), q.WF → q.records k = some pending → pending.kind = ChangeKind.Added →
      (q.Add { key := k, kind := ChangeKind.Deleted, object := o, seq := n }).records k = none ∧
      k ∉ (q.Add { key := k, kind := ChangeKind.Deleted, object := o, seq := n }).order := by
    intro q k pending o n hq hrec hkind
    have hnone : (q.Add { key := k, kind := ChangeKind.Deleted, object := o, seq := n }).records k
        = none := by
      rw [Add_records]
      simp [hrec, hkind]
    exact ⟨hnone, fun hin => ((WF_Add q _ hq).2.1 k).mp hin hnone⟩
  refine ⟨?_, hcount, ?_, ?_⟩
  · intro k
    exact Nat.le_trans (countP_pending_le _ hwf.2.2 k _) (hcount k)
  · intro k pending o n hrec hkind
    exact hdrop _ k pending o n hwf hrec hkind
  · intro k o1 o2 n1 n2
    have hwf1 := WF_Add _ { key := k, kind := ChangeKind.Added, object := o1, seq := n1 } hwf
    have hwf2 := WF_Add _ { key := k, kind := ChangeKind.Deleted, object := o2, seq := n2 } hwf1
    have hpend : ((ChangeQueue.empty.run ops).Add
        { key := k, kind := ChangeKind.Added, object := o1, seq := n1 }).records k =
        some { key := k, kind := ChangeKind.Added, object := o1,
               seq := (ChangeQueue.empty.run ops).nextSeq } := by
      rw [Add_records]
      cases hrec : (ChangeQueue.empty.run ops).records k with
      | none => simp [hrec]
      | some pending => simp [hrec]
    obtain ⟨hnone, hnotin⟩ := hdrop _ k _ o2 n2 hwf1 hpend rfl
    refine ⟨hnone, hnotin, ?_⟩
    have hle := countP_pending_le _ hwf2.2.2 k
      (((ChangeQueue.empty.run ops).Add
        { key := k, kind := ChangeKind.Added, object := o1, seq := n1 }).Add
        { key := k, kind := ChangeKind.Deleted, object := o2, seq := n2 }).order
    rw [List.count_eq_zero_of_not_mem hnotin] at hle
    exact Nat.le_zero.mp hle

/-- Witness of C4: after a flood of updates to "hot" with another key in
between, "hot" has one pending record, and the Added of "hot" that is pending
disappears with a Deleted. -/
theorem queue_one_pending_record_per_key_witness :
    (ChangeQueue.empty.run floodOps).order = ["hot", "cold"] ∧
    (ChangeQueue.empty.run floodOps).pendingRecords.countP (fun r => r.key = "hot") = 1 ∧
    ((ChangeQueue.empty.run floodOps).pendingRecords.countP (fun r => r.key = "hot") ≤ 1) ∧
    ((ChangeQueue.empty.run floodOps).Add
      { key := "hot", kind := ChangeKind.Deleted, object := none, seq := 0 }).records "hot" = none ∧
    "hot" ∉ ((ChangeQueue.empty.run floodOps).Add
      { key := "hot", kind := ChangeKind.Deleted, object := none, seq := 0 }).order :=
  ⟨by decide, by decide, (queue_one_pending_record_per_key floodOps).1 "hot",
    (queue_one_pending_record_per_key floodOps).2.2.1 "hot"
      { key := "hot", kind := ChangeKind.Added,
        object := some { key := "hot", resourceVersion := 3, payload := "h3" }, seq := 3 }
      none 0 (by decide) rfl⟩

/-! ### The pipeline -/

theorem translate_key (e : Event) : (Reflector.translate e).key = e.key := by
  unfold Reflector.translate
  cases e.kind <;> rfl

theorem replay_append (evs : List Event) (e : Event) :
    replay (evs ++ [e]) = replayStep (replay evs) e := by
  simp [replay, List.foldl_append]

theorem replayStep_other (m : Key → Option Object) (e : Event) (k : Key) (h : k ≠ e.key) :
    replayStep m e k = m k := by
  unfold replayStep
  cases e.kind <;> simp [setEntry, h]

theorem update_other (s : VersionedStore) (r : ChangeRecord) (k : Key) (h : k ≠ r.key) :
    (SharedProcessor.update s r).objects k = s.objects k := by
  unfold SharedProcessor.update
  cases r.kind <;> cases r.object <;>
    simp [VersionedStore.Put, VersionedStore.Delete, setEntry, h]

theorem update_congr (s s2 : VersionedStore) (r : ChangeRecord) (k : Key)
    (h : s.objects k = s2.objects k) :
    (SharedProcessor.update s r).objects k = (SharedProcessor.update s2 r).objects k := by
  unfold SharedProcessor.update
  cases r.kind <;> cases r.object <;>
    simp [VersionedStore.Put, VersionedStore.Delete, setEntry, h]

/-- Processing the record of an event brings the store, at the key of the event,
to what replaying the event gives. -/
theorem update_translate (s : VersionedStore) (m : Key → Option Object) (e : Event) (n : Nat) :
    (SharedProcessor.update s
        { key := e.key, kind := (Reflector.translate e).kind,
          object := (Reflector.translate e).object, seq := n }).objects e.key =
      replayStep m e e.key := by
  unfold SharedProcessor.update Reflector.translate replayStep
  cases e.kind <;> simp [VersionedStore.Put, VersionedStore.Delete, setEntry]

theorem addedOnlyFirst_append_other (k : Key) (evs : List Event) (e : Event) (h : e.key ≠ k) :
    addedOnlyFirst k (evs ++ [e]) = addedOnlyFirst k evs := by
  induction evs with
  | nil => simp [addedOnlyFirst, h]
  | cons a rest ih =>
    by_cases ha : a.key = k
    · simp [addedOnlyFirst, ha, h]
    · simp [addedOnlyFirst, ha, ih]

theorem addedOnlyFirst_of_append (k : Key) (evs : List Event) (e : Event)
    (h : addedOnlyFirst k (evs ++ [e]) = true) : addedOnlyFirst k evs = true := by
  induction evs with
  | nil => rfl
  | cons a rest ih =>
    by_cases ha : a.key = k
    · simp only [List.cons_append, addedOnlyFirst, ha, if_true] at h ⊢
      have h2 : ((rest ++ [e]).all fun e2 =>
          !(decide (e2.key = k) && decide (e2.kind = EventKind.Added))) = true := h
      rw [List.all_append, Bool.and_eq_true] at h2
      exact h2.1
    · simp only [List.cons_append, addedOnlyFirst, ha, if_false] at h ⊢
      exact ih h

theorem addedOnlyFirst_append_added (k : Key) (evs : List Event) (e : Event)
    (h : addedOnlyFirst k (evs ++ [e]) = true) (hk : e.key = k)
    (hkind : e.kind = EventKind.Added) : ∀ e2 ∈ evs, e2.key ≠ k := by
  induction evs with
  | nil => simp
  | cons a rest ih =>
    by_cases ha : a.key = k
    · simp [addedOnlyFirst, ha, hk, hkind] at h
    · simp only [List.cons_append, addedOnlyFirst, ha, if_false] at h
      intro e2 he2
      rcases List.mem_cons.mp he2 with h2 | h2
      · rw [h2]; exact ha
      · exact ih h e2 h2

theorem PipelineInv_init : PipelineInv Pipeline.init [] := by
  refine ⟨WF_empty, fun k => ⟨fun _ => ⟨rfl, rfl⟩, ?_, fun _ => ⟨?_, fun _ => rfl⟩⟩⟩
  · intro r hr
    simp [Pipeline.init, ChangeQueue.empty] at hr
  · intro o ho
    simp [replay] at ho

/-- Receiving an event keeps the invariant, for the events extended by it. -/
theorem PipelineInv_receive (p : Pipeline) (evs : List Event) (e : Event)
    (h : PipelineInv p evs) : PipelineInv (Reflector.receive p e) (evs ++ [e]) := by
  obtain ⟨hwf, hinv⟩ := h
  refine ⟨WF_Add _ _ hwf, ?_⟩
  intro k
  obtain ⟨h1, h2, h3⟩ := hinv k
  have hrecs : (Reflector.receive p e).queue.records k =
      (p.queue.Add (Reflector.translate e)).records k := rfl
  have hstore : (Reflector.receive p e).store = p.store := rfl
  by_cases hk : k = e.key
  · subst hk
    have hadd := Add_records p.queue (Reflector.translate e) e.key
    rw [translate_key] at hadd
    simp only [if_true] at hadd
    refine ⟨?_, ?_, ?_⟩
    · intro hno
      exact absurd rfl (hno e (by simp))
    · intro r hr
      rw [hrecs, hadd] at hr
      have hstamped : r =
          { key := e.key, kind := (Reflector.translate e).kind,
            object := (Reflector.translate e).object, seq := p.queue.nextSeq } := by
        cases hrec : p.queue.records e.key with
        | none =>
          simp only [hrec, Option.some.injEq] at hr
          exact hr.symm
        | some pending =>
          by_cases hdrop : pending.kind = ChangeKind.Added ∧
              (Reflector.translate e).kind = ChangeKind.Deleted
          · simp [hrec, hdrop] at hr
          · simp only [hrec, hdrop, if_false, Option.some.injEq] at hr
            exact hr.symm
      subst hstamped
      refine ⟨?_, ?_⟩
      · rw [hstore, replay_append]
        exact update_translate _ _ e _
      · intro hkind hfirst
        have hadded : e.kind = EventKind.Added := by
          cases hek : e.kind <;> simp [Reflector.translate, hek] at hkind
          rfl
        rw [hstore]
        exact (h1 (addedOnlyFirst_append_added e.key evs e hfirst rfl hadded)).1
    · intro hnone
      rw [hrecs, hadd] at hnone
      cases hrec : p.queue.records e.key with
      | none => simp [hrec] at hnone
      | some pending =>
        by_cases hdrop : pending.kind = ChangeKind.Added ∧
            (Reflector.translate e).kind = ChangeKind.Deleted
        · have hdel : e.kind = EventKind.Deleted := by
            cases hek : e.kind <;> simp [Reflector.translate, hek] at hdrop
            rfl
          have hreplay : replay (evs ++ [e]) e.key = none := by
            rw [replay_append]
            simp [replayStep, hdel, setEntry]
          refine ⟨?_, ?_⟩
          · intro o ho
            rw [hreplay] at ho
            cases ho
          · intro hfirst
            rw [hreplay, hstore]
            exact (h2 pending hrec).2 hdrop.1 (addedOnlyFirst_of_append _ _ _ hfirst)
        · simp [hrec, hdrop] at hnone
  · have hek : e.key ≠ k := fun h => hk h.symm
    have hrec2 : (Reflector.receive p e).queue.records k = p.queue.records k := by
      rw [hrecs, Add_records, translate_key]
      simp [hk]
    have hreplay : replay (evs ++ [e]) k = replay evs k := by
      rw [replay_append]
      exact replayStep_other _ _ _ hk
    have hfirst : addedOnlyFirst k (evs ++ [e]) = addedOnlyFirst k evs :=
      addedOnlyFirst_append_other k evs e hek
    rw [KeyInv, hrec2, hreplay, hfirst, hstore]
    refine ⟨?_, h2, h3⟩
    intro hno
    exact h1 (fun e2 he2 => hno e2 (List.mem_append_left _ he2))

/-- A step of the processor keeps the invariant. -/
theorem PipelineInv_step (p : Pipeline) (evs : List Event) (h : PipelineInv p evs) :
    PipelineInv (SharedProcessor.step p) evs := by
  unfold SharedProcessor.step
  cases hpop : p.queue.Pop with
  | blocked => exact h
  | closedSignal => exact h
  | record r q2 =>
    obtain ⟨hwf, hinv⟩ := h
    obtain ⟨_, hrec, hrecs2, hwf2⟩ := Pop_record p.queue q2 r hwf hpop
    refine ⟨hwf2, ?_⟩
    intro k
    obtain ⟨h1, h2, h3⟩ := hinv k
    by_cases hk : k = r.key
    · subst hk
      refine ⟨?_, ?_, ?_⟩
      · intro hno
        have := (h1 hno).2
        rw [hrec] at this
        cases this
      · intro r2 hr2
        simp [hrecs2, setEntry] at hr2
      · intro _
        have := (h2 r hrec).1
        simp only
        exact ⟨fun o ho => by rw [this]; exact ho, fun _ => this⟩
    · have hrk : q2.records k = p.queue.records k := by
        rw [hrecs2]
        exact setEntry_other _ _ _ _ hk
      have hst : (SharedProcessor.update p.store r).objects k = p.store.objects k :=
        update_other _ _ _ hk
      refine ⟨?_, ?_, ?_⟩
      · intro hno
        simp only [hrk, hst]
        exact h1 hno
      · intro r2 hr2
        simp only [hrk] at hr2
        simp only [hst]
        rw [update_congr _ p.store r2 k hst]
        exact h2 r2 hr2
      · intro hnone
        simp only [hrk] at hnone
        simp only [hst]
        exact h3 hnone

/-- The invariant holds along every schedule. -/
theorem PipelineInv_run (acts : List Action) (p : Pipeline) (evs : List Event)
    (h : PipelineInv p evs) : PipelineInv (p.run acts) (evs ++ eventsOf acts) := by
  induction acts generalizing p evs with
  | nil => simpa [Pipeline.run, eventsOf] using h
  | cons a rest ih =>
    cases a with
    | receive e =>
      have := ih (Reflector.receive p e) (evs ++ [e]) (PipelineInv_receive p evs e h)
      simpa [Pipeline.run, Pipeline.act, eventsOf] using this
    | process =>
      have := ih (SharedProcessor.step p) evs (PipelineInv_step p evs h)
      simpa [Pipeline.run, Pipeline.act, eventsOf] using this

/-- A step of the processor on a well-formed queue takes the first key off. -/
theorem step_order (p : Pipeline) (h : p.queue.WF) :
    (SharedProcessor.step p).queue.order = p.queue.order.tail := by
  unfold SharedProcessor.step ChangeQueue.Pop
  cases hord : p.queue.order with
  | nil =>
    by_cases hc : p.queue.closed = true
    · simp [hc, hord]
    · simp [hc, hord]
  | cons k rest =>
    have hin : k ∈ p.queue.order := by rw [hord]; exact List.mem_cons_self _ _
    have hne := (h.2.1 k).mp hin
    cases hrec : p.queue.records k with
    | none => exact absurd hrec hne
    | some r => simp [hrec]

/-- The processor drains the queue: as many steps as there are pending keys
leave no record pending. -/
theorem processing_drains (n : Nat) (p : Pipeline) (evs : List Event)
    (h : PipelineInv p evs) (hn : p.queue.order.length = n) :
    (p.run (List.replicate n Action.process)).drained := by
  induction n generalizing p with
  | zero =>
    simp only [List.replicate_zero, Pipeline.run, List.foldl_nil, Pipeline.drained]
    exact List.length_eq_zero.mp hn
  | succ m ih =>
    have hstep := PipelineInv_step p evs h
    have hlen : (SharedProcessor.step p).queue.order.length = m := by
      rw [step_order p h.1, List.length_tail, hn]
      rfl
    have := ih (SharedProcessor.step p) hstep hlen
    simpa [Pipeline.run, List.replicate_succ, Pipeline.act] using this

/-- Every schedule can be extended by processor steps to one that leaves the
queue drained. -/
theorem drain_reachable (acts : List Action) :
    (Pipeline.init.run (acts ++
      List.replicate (Pipeline.init.run acts).queue.order.length Action.process)).drained := by
  have hinv := PipelineInv_run acts Pipeline.init [] PipelineInv_init
  have := processing_drains _ (Pipeline.init.run acts) _ hinv rfl
  simpa [Pipeline.run, List.foldl_append] using this

/-- What the pipeline does guarantee: after any schedule that leaves the queue
drained, the store holds every object of the replayed map, and on every key that
was not Added again after its first event the store and the replayed map are
equal. A drained store can differ from the replay only by keeping an object of a
key that was Added again. -/
theorem drained_store_holds_replay (acts : List Action)
    (hd : (Pipeline.init.run acts).drained) :
    (∀ k o, replay (eventsOf acts) k = some o →
      (Pipeline.init.run acts).store.Get k = some o) ∧
    (∀ k, addedOnlyFirst k (eventsOf acts) = true →
      (Pipeline.init.run acts).store.Get k = replay (eventsOf acts) k) := by
  have hinv := PipelineInv_run acts Pipeline.init [] PipelineInv_init
  rw [List.nil_append] at hinv
  obtain ⟨hwf, hkeys⟩ := hinv
  have hnone : ∀ k, (Pipeline.init.run acts).queue.records k = none := by
    intro k
    by_contra hne
    have hin := (hwf.2.1 k).mpr hne
    unfold Pipeline.drained at hd
    rw [hd] at hin
    cases hin
  exact ⟨fun k => ((hkeys k).2.2 (hnone k)).1, fun k => ((hkeys k).2.2 (hnone k)).2⟩

/-- C3: the events Added, Deleted, Added, Deleted of "k", replayed onto an empty
map, leave nothing under "k", and the pipeline that processes each event before
the next arrives ends drained with nothing under "k", as the claim says. When only
the first Added is processed before the other three arrive, the second Added
overwrites the pending Deleted and is then dropped by the last Deleted: the
pipeline ends drained with the first object still in the store, a delete lost. -/
theorem drained_store_differs_from_replay :
    eventsOf readdedSchedule = eventsOf promptSchedule ∧
    replay (eventsOf readdedSchedule) "k" = none ∧
    (Pipeline.init.run promptSchedule).drained ∧
    (Pipeline.init.run promptSchedule).store.Get "k" = none ∧
    (Pipeline.init.run readdedSchedule).drained ∧
    (Pipeline.init.run readdedSchedule).store.Get "k" =
      some { key := "k", resourceVersion := 1, payload := "v1" } ∧
    (Pipeline.init.run readdedSchedule).store.Get "k" ≠
      replay (eventsOf readdedSchedule) "k" := by
  refine ⟨by decide, by decide, by decide, by decide, by decide, by decide, by decide⟩

end Core
